import Mathlib

/-!
Verification of the live quiz session coordinator of this repository.

The repository contains two independent implementations of the live game:

* `src/backend/app/socket_manager.py` — a python-socketio coordinator backed by
  SQLAlchemy rows (`src/backend/app/models.py`), with a process-wide runtime
  registry `self.runtime : dict[str, dict]` keyed by session PIN; and
* `src/backend/quiz/consumers.py` — a Django Channels consumer backed by Django
  ORM models.

Both are embedded below.  The socketio coordinator is embedded as a family of
pure transition functions over a `GState` record holding one game session, its
players, its answers, the resolved quiz content and the runtime-registry entry
for its PIN.  Each handler in the source looks the session up by PIN; the
embedding keeps a single session record and compares its stored PIN against the
request's PIN, which is equivalent for the per-session properties proved here.
Database commits and in-memory mutations are merged into the single state
record (the source commits before emitting, and no property below distinguishes
the two copies).  Wall-clock reads (`time.time()`, `datetime.utcnow()`) are
passed in as an explicit `now : ℚ` parameter; random UUIDs for new player rows
are passed in as an explicit `newId` parameter.  Emitted socket events are
returned as an explicit list.  Python floats are modelled as exact rationals;
`int(x)` on the non-negative values that occur is `⌊x⌋`.
-/

/-! ### Python string primitives

`str.lower()`, `str.upper()` and `str.strip()` are modelled over the
character list (Lean's built-in `String.toLower`, `String.toUpper` and
`String.trim` compute the same strings but are defined by well-founded
recursion on byte positions, which blocks evaluation inside proofs). -/

/-- Python `str.lower()` (and SQL `func.lower`): lower-case every character. -/
def pyLower (s : String) : String := ⟨s.data.map Char.toLower⟩

/-- Python `str.upper()`: upper-case every character. -/
def pyUpper (s : String) : String := ⟨s.data.map Char.toUpper⟩

/-- Python `str.strip()`: drop leading and trailing whitespace. -/
def pyStrip (s : String) : String :=
  ⟨((s.data.dropWhile Char.isWhitespace).reverse.dropWhile Char.isWhitespace).reverse⟩

/-! ### Scoring

`submit_answer` in `src/backend/app/socket_manager.py` lines 146–149:

    points = 0
    if is_correct:
        speed_ratio = max(0.0, min(1.0, (limit - elapsed) / limit))
        points = int(600 + (speed_ratio * 400))

`elapsed` is already clamped to `≥ 0` by the caller (line 142).  `600 +
speed_ratio*400` is non-negative, so python `int` truncation is `⌊·⌋`.
Division by a zero `limit` would raise in python; every theorem about a
correct answer below assumes `0 < limit`. -/
def submit_points (is_correct : Bool) (elapsed limit : ℚ) : ℤ :=
  if is_correct then
    let speed_frac : ℚ := max 0 (min 1 ((limit - elapsed) / limit))
    ⌊(600 : ℚ) + speed_frac * 400⌋
  else 0

/-- Scoring of `save_answer` in `src/backend/quiz/consumers.py` lines 313–324:
empty selection scores 0 and is not correct; otherwise correctness is
case-insensitive match against the stored correct answer, base 100 for
correct, and a time bonus `int((max(0, limit - response_time) / limit) * 50)`
awarded when correct and the quiz time limit is positive.  Returns
(is_correct, score). -/
def django_answer_points (selected correct_answer : String) (response_time time_per_question : ℚ) :
    Bool × ℤ :=
  if pyStrip selected = "" then (false, 0)
  else
    let is_correct : Bool := pyUpper selected == pyUpper correct_answer
    let base_score : ℤ := if is_correct then 100 else 0
    let time_bonus : ℤ :=
      if is_correct ∧ 0 < time_per_question then
        ⌊max 0 (time_per_question - response_time) / time_per_question * 50⌋
      else 0
    (is_correct, base_score + time_bonus)

/-! ### Data model (src/backend/app/models.py)

Fields never read by the coordinator logic (`host_name`, `created_at`,
`joined_at`, row UUID defaults) are omitted; `session_id` foreign keys are
implicit in the single-session state.  `is_correct` is stored in the source as
`int(bool)` and modelled as `Bool`. -/

/-- One entry of `Quiz.questions_json` with the keys the coordinator reads:
`question`, `options`, `correct_option_id`, `time_limit_seconds`. -/
structure Question where
  question : String
  options : List String
  correct_option_id : String
  time_limit_seconds : ℚ
deriving DecidableEq

/-- A `players` row: primary key, nullable socket id, display name, score. -/
structure PlayerRow where
  id : String
  sid : Option String
  name : String
  score : ℤ
deriving DecidableEq

/-- An `answers` row for the session under consideration. -/
structure AnswerRow where
  player_id : String
  question_index : ℤ
  selected_option_id : String
  is_correct : Bool
  points_awarded : ℤ
  response_time_ms : ℤ
deriving DecidableEq

/-- A `game_sessions` row. -/
structure SessionRow where
  id : String
  pin : String
  quiz_id : String
  status : String
  current_question_index : ℤ
  started_at : Option ℚ
  ended_at : Option ℚ
deriving DecidableEq

/-- The whole state touched by the socketio coordinator for one session:
the session row, its player and answer rows, the resolved quiz content
(`none` models a quiz row that cannot be found), and the runtime-registry
entry `self.runtime[pin]`: `host_sid`, `question_started_at`, and
`answered_by_question` flattened to a set of (question_index, player_id)
pairs (the source's `defaultdict(set)` keyed by question index). -/
structure GState where
  session : SessionRow
  players : List PlayerRow
  answers : List AnswerRow
  quiz : Option (List Question)
  host_sid : Option String
  question_started_at : Option ℚ
  answered : List (ℤ × String)
deriving DecidableEq

/-! ### Emitted events -/

/-- Destination of an emitted event: a single socket id or the session room. -/
inductive Dest where
  | toSid (sid : String)
  | room
deriving DecidableEq

/-- The question payload built by `_emit_question` and
`_emit_game_snapshot_to_sid`: exactly the question index, the prompt, the
options and the time limit — by construction there is no field for the
correct option. -/
structure QuestionPayload where
  question_index : ℤ
  question : String
  options : List String
  time_limit_seconds : ℚ
deriving DecidableEq

/-- One row of the payload of `compute_leaderboard`. -/
structure LeaderboardEntry where
  player_id : String
  player_name : String
  score : ℤ
  correct_answers : ℕ
deriving DecidableEq

/-- Socket events emitted by the coordinator.  `crash` models an unhandled
python exception (list index out of range). -/
inductive Event where
  | errorMsg (dest : Dest) (detail : String)
  | connected (dest : Dest)
  | joinSuccess (dest : Dest) (role : String)
  | lobbyUpdate (status : String) (roster : List (String × String × ℤ))
  | questionStarted (dest : Dest) (payload : QuestionPayload)
  | answerAckRejected (dest : Dest) (reason : String)
  | answerAckAccepted (dest : Dest) (is_correct : Bool) (points : ℤ) (total_score : ℤ)
  | gameEnded (dest : Dest) (leaderboard : List LeaderboardEntry)
  | crash
deriving DecidableEq

/-! ### Leaderboard (socket_manager.py lines 276–296)

For every player row of the session, in database order, an entry with the
player's stored cumulative score and the count of that player's answers
flagged correct; then `result.sort(key=lambda item: item["score"],
reverse=True)` — python's stable sort by score descending, embedded as
insertion sort with the reflexive descending-score relation, which is the
same stable descending ordering. -/

def correct_count (answers : List AnswerRow) (pid : String) : ℕ :=
  (answers.filter (fun a => a.player_id == pid && a.is_correct)).length

def leaderboard_entries (players : List PlayerRow) (answers : List AnswerRow) :
    List LeaderboardEntry :=
  players.map (fun p => ⟨p.id, p.name, p.score, correct_count answers p.id⟩)

/-- Descending order on scores used by `result.sort(..., reverse=True)`. -/
def scoreDesc (a b : LeaderboardEntry) : Prop := b.score ≤ a.score

instance : DecidableRel scoreDesc := fun a b => inferInstanceAs (Decidable (b.score ≤ a.score))

instance : IsTotal LeaderboardEntry scoreDesc := ⟨fun a b => le_total b.score a.score⟩

instance : IsTrans LeaderboardEntry scoreDesc :=
  ⟨fun _ _ _ h h' => le_trans h' h⟩

def compute_leaderboard (players : List PlayerRow) (answers : List AnswerRow) :
    List LeaderboardEntry :=
  List.insertionSort scoreDesc (leaderboard_entries players answers)

/-! ### Event helpers (socket_manager.py lines 219–267) -/

/-- Payload construction shared by `_emit_question` and
`_emit_game_snapshot_to_sid` (lines 234–241 and 250–258): question index plus
`question`, `options`, `time_limit_seconds` of the question. -/
def emitQuestionPayload (idx : ℤ) (q : Question) : QuestionPayload :=
  ⟨idx, q.question, q.options, q.time_limit_seconds⟩

/-- Embeds `_emit_question` (lines 232–242).  The source indexes
`questions[question_index]` directly; an out-of-range index raises, modelled
by `crash`.  All call sites pass a non-negative index. -/
def emit_question (question_index : ℤ) (questions : List Question) : List Event :=
  match questions.get? question_index.toNat with
  | some q => [.questionStarted .room (emitQuestionPayload question_index q)]
  | none => [.crash]

/-- Roster rows of `_emit_lobby` (lines 223–227). -/
def lobbyRoster (players : List PlayerRow) : List (String × String × ℤ) :=
  players.map (fun p => (p.id, p.name, p.score))

/-- Embeds `_emit_lobby` (lines 219–230): re-reads the session and its
players and broadcasts status plus roster to the room. -/
def emit_lobby (st : GState) : List Event :=
  [.lobbyUpdate st.session.status (lobbyRoster st.players)]

/-- Embeds `_emit_game_snapshot_to_sid` (lines 244–267).  If the session is
in progress with a non-negative index, re-send the current question payload
to `sid` alone when the quiz resolves and the index is in range (the
`get?`-match is exactly the source's `quiz and index < len(questions)`
guard), and return.  Otherwise, if the session is finished, send the
terminal leaderboard to `sid` alone. -/
def emit_game_snapshot_to_sid (st : GState) (sid : String) : List Event :=
  if st.session.status = "in_progress" ∧ 0 ≤ st.session.current_question_index then
    match st.quiz with
    | some qs =>
      match qs.get? st.session.current_question_index.toNat with
      | some q =>
          [.questionStarted (.toSid sid)
            (emitQuestionPayload st.session.current_question_index q)]
      | none => []
    | none => []
  else if st.session.status = "finished" then
    [.gameEnded (.toSid sid) (compute_leaderboard st.players st.answers)]
  else []

/-! ### Coordinator transitions (socket_manager.py lines 27–217) -/

/-- Embeds `disconnect` (lines 27–33): the first player row carrying this
socket id has its connection handle cleared; score and row are kept. -/
def disconnect (st : GState) (sid : String) : GState :=
  match st.players.find? (fun p => p.sid == some sid) with
  | some p =>
      { st with players :=
          st.players.map (fun q => if q.id == p.id then { q with sid := none } else q) }
  | none => st

/-- Embeds `join_room` (lines 35–79).  Inputs are the handler's `pin`,
`player_name` and `role` after the source's `.strip()` normalisation;
`newId` is the UUID a freshly created player row would receive.  A host
join overwrites `runtime["host_sid"]`; a player join finds an existing row
by case-insensitive name (attaching the new socket id) or creates a new row
with score 0, then emits join_success, the lobby roster, and the
resynchronisation snapshot to the joining socket. -/
def join_room (st : GState) (sid pin player_name role newId : String) :
    GState × List Event :=
  if pin.length ≠ 6 then (st, [.errorMsg (.toSid sid) "Invalid PIN"])
  else if st.session.pin ≠ pin then (st, [.errorMsg (.toSid sid) "Game not found"])
  else if role = "host" then
    let st' := { st with host_sid := some sid }
    (st', [.joinSuccess (.toSid sid) "host"] ++ emit_lobby st'
            ++ emit_game_snapshot_to_sid st' sid)
  else if player_name.length < 2 then (st, [.errorMsg (.toSid sid) "Name too short"])
  else
    match st.players.find? (fun p => pyLower p.name == pyLower player_name) with
    | some p =>
        let reattached :=
          st.players.map (fun q => if q.id == p.id then { q with sid := some sid } else q)
        let st' := { st with players := reattached }
        (st', [.joinSuccess (.toSid sid) "player"] ++ emit_lobby st'
                ++ emit_game_snapshot_to_sid st' sid)
    | none =>
        let st' := { st with players := st.players ++ [⟨newId, some sid, player_name, 0⟩] }
        (st', [.joinSuccess (.toSid sid) "player"] ++ emit_lobby st'
                ++ emit_game_snapshot_to_sid st' sid)

/-- Embeds `start_game` (lines 81–106): session lookup by pin, host check
against the runtime registry, quiz resolution; on success status becomes
in_progress, the index becomes 0, the runtime question-start timestamp is
set to now, the per-question answered sets are reset, and question 0 is
broadcast to the room. -/
def start_game (st : GState) (sid pin : String) (now : ℚ) : GState × List Event :=
  if st.session.pin ≠ pin then (st, [.errorMsg (.toSid sid) "Game not found"])
  else if st.host_sid ≠ some sid then (st, [.errorMsg (.toSid sid) "Only host can start"])
  else
    match st.quiz with
    | none => (st, [.errorMsg (.toSid sid) "Quiz not found"])
    | some qs =>
        let st' := { st with
          session := { st.session with
            status := "in_progress", started_at := some now, current_question_index := 0 },
          question_started_at := some now,
          answered := [] }
        (st', emit_question 0 qs)

/-- Embeds `submit_answer` (lines 108–175).  Error paths: unknown pin,
status not in_progress, no player row carrying this socket id, missing quiz
or stale question index.  A duplicate submission (player id already in the
answered set of this index) is acknowledged `accepted=False` with reason
"Already answered" and changes nothing.  Otherwise correctness is exact
match on the correct option id, elapsed time is clamped at 0 below (with a
missing runtime timestamp defaulting to `now`, making elapsed 0), points
come from `submit_points`, the player's score is incremented, the answered
set and answer rows grow, and the submitter alone is acknowledged.

The accepting tail of the handler (lines 140–175) is split off as
`submit_accept` so its result state can be named in lemmas. -/
def submit_accept (st : GState) (player : PlayerRow) (question : Question)
    (sid selected_option_id : String) (question_index : ℤ) (now : ℚ) : GState × List Event :=
  let is_correct : Bool := selected_option_id == question.correct_option_id
  let elapsed : ℚ := max 0 (now - (st.question_started_at.getD now))
  let limit : ℚ := question.time_limit_seconds
  let response_time_ms : ℤ := ⌊elapsed * 1000⌋
  let points : ℤ := submit_points is_correct elapsed limit
  let newScore : ℤ := player.score + points
  let st' := { st with
    players := st.players.map
      (fun q => if q.id == player.id then { q with score := newScore } else q),
    answered := (question_index, player.id) :: st.answered,
    answers := st.answers ++
      [⟨player.id, question_index, selected_option_id, is_correct,
        points, response_time_ms⟩] }
  (st', [.answerAckAccepted (.toSid sid) is_correct points newScore])

def submit_answer (st : GState) (sid pin selected_option_id : String)
    (question_index : ℤ) (now : ℚ) : GState × List Event :=
  if st.session.pin ≠ pin then (st, [.errorMsg (.toSid sid) "Game not found"])
  else if st.session.status ≠ "in_progress" then
    (st, [.errorMsg (.toSid sid) "Game has not started"])
  else
    match st.players.find? (fun p => p.sid == some sid) with
    | none => (st, [.errorMsg (.toSid sid) "Player not in session"])
    | some player =>
      match st.quiz with
      | none => (st, [.errorMsg (.toSid sid) "Question mismatch"])
      | some qs =>
        if question_index ≠ st.session.current_question_index then
          (st, [.errorMsg (.toSid sid) "Question mismatch"])
        else if (question_index, player.id) ∈ st.answered then
          (st, [.answerAckRejected (.toSid sid) "Already answered"])
        else
          match qs.get? question_index.toNat with
          | none => (st, [.crash])
          | some question =>
            submit_accept st player question sid selected_option_id question_index now

/-- Embeds `_finalize_game` (lines 269–274): status becomes finished, the
ended timestamp is set, and the leaderboard is broadcast to the room. -/
def finalize_game (st : GState) (now : ℚ) : GState × List Event :=
  let st' := { st with session := { st.session with status := "finished", ended_at := some now } }
  (st', [.gameEnded .room (compute_leaderboard st'.players st'.answers)])

/-- Embeds `next_question` (lines 177–204): session lookup, host check, quiz
resolution; if `current_question_index + 1` is still short of the question
count, the index is incremented, the runtime question-start timestamp is
reset and the new question broadcast; otherwise the game is finalized. -/
def next_question (st : GState) (sid pin : String) (now : ℚ) : GState × List Event :=
  if st.session.pin ≠ pin then (st, [.errorMsg (.toSid sid) "Game not found"])
  else if st.host_sid ≠ some sid then (st, [.errorMsg (.toSid sid) "Only host can advance"])
  else
    match st.quiz with
    | none => (st, [.errorMsg (.toSid sid) "Quiz missing"])
    | some qs =>
        let next_index := st.session.current_question_index + 1
        if (qs.length : ℤ) ≤ next_index then finalize_game st now
        else
          let st' := { st with
            session := { st.session with current_question_index := next_index },
            question_started_at := some now }
          (st', emit_question next_index qs)

/-- Embeds `end_game` (lines 206–217): a missing session returns silently,
a non-host is refused, the host finalizes the game immediately. -/
def end_game (st : GState) (sid pin : String) (now : ℚ) : GState × List Event :=
  if st.session.pin ≠ pin then (st, [])
  else if st.host_sid ≠ some sid then (st, [.errorMsg (.toSid sid) "Only host can end"])
  else finalize_game st now

/-! ### Operations and reachability -/

/-- One inbound client intent handled by the coordinator, with the
non-deterministic inputs (socket id, wall clock, fresh UUID) made explicit. -/
inductive Op where
  | joinOp (sid pin player_name role newId : String)
  | startOp (sid pin : String) (now : ℚ)
  | submitOp (sid pin selected_option_id : String) (question_index : ℤ) (now : ℚ)
  | nextOp (sid pin : String) (now : ℚ)
  | endOp (sid pin : String) (now : ℚ)
  | discOp (sid : String)

/-- Dispatch of an operation to its handler. -/
def applyOp (st : GState) : Op → GState × List Event
  | .joinOp sid pin player_name role newId => join_room st sid pin player_name role newId
  | .startOp sid pin now => start_game st sid pin now
  | .submitOp sid pin sel qi now => submit_answer st sid pin sel qi now
  | .nextOp sid pin now => next_question st sid pin now
  | .endOp sid pin now => end_game st sid pin now
  | .discOp sid => (disconnect st sid, [])

/-- State of a session right after `POST /sessions/start`
(`src/backend/app/main.py` lines 130–150): status lobby, index −1 (the model
default of `GameSession.current_question_index`), no players, no answers,
and an empty runtime-registry entry.  The quiz content resolved by
`session.quiz_id` is a parameter (`none` models deleted quiz rows). -/
def mkInit (id pin quiz_id : String) (quiz : Option (List Question)) : GState :=
  { session := ⟨id, pin, quiz_id, "lobby", -1, none, none⟩
    players := []
    answers := []
    quiz := quiz
    host_sid := none
    question_started_at := none
    answered := [] }

/-- Reachability of coordinator states: any operation may be issued at any
time, exactly as the source accepts it. -/
inductive Reach (st0 : GState) : GState → Prop where
  | refl : Reach st0 st0
  | step (s : GState) (op : Op) : Reach st0 s → Reach st0 (applyOp s op).1

/-- Well-sequencing guard: the host starts only a lobby session and
advances or ends only an in-progress session.  The source does not enforce
this — the guard captures the intended host behaviour. -/
def OpGuard (s : GState) : Op → Prop
  | .startOp _ _ _ => s.session.status = "lobby"
  | .nextOp _ _ _ => s.session.status = "in_progress"
  | .endOp _ _ _ => s.session.status = "in_progress"
  | _ => True

/-- Reachability along well-sequenced traces only. -/
inductive ReachW (st0 : GState) : GState → Prop where
  | refl : ReachW st0 st0
  | step (s : GState) (op : Op) : ReachW st0 s → OpGuard s op → ReachW st0 (applyOp s op).1

/-! ### The Django Channels variant (src/backend/quiz/consumers.py)

State relevant to `save_answer` and `get_leaderboard`: participants,
answers, questions with their correct answer, and the quiz-wide
`time_per_question`. -/

/-- A `Participant` row as used by the consumer. -/
structure DjParticipant where
  nickname : String
  total_score : ℤ
  correct_answers : ℕ
  total_response_time : ℚ
deriving DecidableEq

/-- An `Answer` row of the Django variant, keyed by (participant, question). -/
structure DjAnswer where
  participant : String
  question : String
  selected_option : String
  is_correct : Bool
  response_time : ℚ
  score : ℤ
deriving DecidableEq

/-- A `Question` row of the Django variant: its id and correct answer. -/
structure DjQuestion where
  id : String
  correct_answer : String
deriving DecidableEq

/-- Quiz-scoped state of the Django consumer. -/
structure DjState where
  participants : List DjParticipant
  answers : List DjAnswer
  questions : List DjQuestion
  time_per_question : ℚ
deriving DecidableEq

/-- The `update_or_create` upsert of `save_answer` (line 326): if an answer
row for this (participant, question) pair exists it is overwritten with the
new defaults, otherwise a row is appended. -/
def djUpsertAnswer (answers : List DjAnswer) (row : DjAnswer) : List DjAnswer :=
  if answers.any (fun a => a.participant == row.participant && a.question == row.question) then
    answers.map (fun a =>
      if a.participant == row.participant && a.question == row.question then row else a)
  else answers ++ [row]

/-- Embeds `save_answer` (lines 306–345).  Looks up the participant by
nickname and the question by id (any lookup failure is swallowed by the
source's bare `except`, leaving the state unchanged); computes the score via
`django_answer_points`; upserts the answer row (storing the upper-cased
selection, or the empty string); then recomputes the participant's
`total_score` as the sum of all their answer scores, recounts their correct
answers, and adds `response_time` to their accumulated response time. -/
def django_save_answer (st : DjState) (nickname question_id selected : String)
    (response_time : ℚ) : DjState :=
  match st.participants.find? (fun p => p.nickname == nickname),
        st.questions.find? (fun q => q.id == question_id) with
  | some _, some question =>
      let scored := django_answer_points selected question.correct_answer
        response_time st.time_per_question
      let stored := if pyStrip selected = "" then "" else pyUpper selected
      let answers' := djUpsertAnswer st.answers
        ⟨nickname, question_id, stored, scored.1, response_time, scored.2⟩
      let mine := answers'.filter (fun a => a.participant == nickname)
      let participants' := st.participants.map (fun p =>
        if p.nickname == nickname then
          { p with
            total_score := (mine.map (fun a => a.score)).sum,
            correct_answers := (mine.filter (fun a => a.is_correct)).length,
            total_response_time := p.total_response_time + response_time }
        else p)
      { st with answers := answers', participants := participants' }
  | _, _ => st

/-- Ordering used by `get_leaderboard` (lines 347–361):
`order_by('-total_score', 'total_response_time')` — total score descending
with ties broken by accumulated response time ascending. -/
def djOrder (a b : DjParticipant) : Prop :=
  b.total_score < a.total_score ∨
    (a.total_score = b.total_score ∧ a.total_response_time ≤ b.total_response_time)

instance : DecidableRel djOrder := fun _a _b =>
  inferInstanceAs (Decidable (_ ∨ _))

/-- Embeds `get_leaderboard` of the Django consumer: the participants sorted
by the `order_by` key (the serialisation to dicts with ranks is omitted; the
order is the content of the claimed property). -/
def django_get_leaderboard (ps : List DjParticipant) : List DjParticipant :=
  List.insertionSort djOrder ps

/-! ### Session-code generation (src/backend/app/main.py lines 220–226)

    for _ in range(30):
        pin = "".join(random.choices(string.digits, k=6))
        existing = await db.scalar(select(GameSession).where(GameSession.pin == pin))
        if not existing:
            return pin
    raise HTTPException(status_code=500, detail="Could not generate unique game PIN")

The stream of random draws is the explicit `samples`, the store lookup the
predicate `taken`. -/

def genPinAux (taken : String → Bool) (samples : ℕ → String) : ℕ → ℕ → Except String String
  | _, 0 => .error "Could not generate unique game PIN"
  | i, fuel + 1 =>
      let pin := samples i
      if taken pin then genPinAux taken samples (i + 1) fuel else .ok pin

/-- Embeds `_generate_unique_pin`: 30 bounded attempts, then the failure. -/
def generate_unique_pin (taken : String → Bool) (samples : ℕ → String) : Except String String :=
  genPinAux taken samples 0 30

/-! ### Frame lemmas: which fields each handler can touch -/

theorem join_room_frame (st : GState) (sid pin player_name role newId : String) :
    (join_room st sid pin player_name role newId).1.session = st.session ∧
    (join_room st sid pin player_name role newId).1.answers = st.answers ∧
    (join_room st sid pin player_name role newId).1.answered = st.answered ∧
    (join_room st sid pin player_name role newId).1.quiz = st.quiz ∧
    (join_room st sid pin player_name role newId).1.question_started_at
      = st.question_started_at := by
  unfold join_room
  repeat' split
  all_goals exact ⟨rfl, rfl, rfl, rfl, rfl⟩

theorem disconnect_frame (st : GState) (sid : String) :
    (disconnect st sid).session = st.session ∧
    (disconnect st sid).answers = st.answers ∧
    (disconnect st sid).answered = st.answered ∧
    (disconnect st sid).quiz = st.quiz ∧
    (disconnect st sid).question_started_at = st.question_started_at := by
  unfold disconnect
  repeat' split
  all_goals exact ⟨rfl, rfl, rfl, rfl, rfl⟩

theorem finalize_game_state (st : GState) (now : ℚ) :
    (finalize_game st now).1
      = { st with session := { st.session with status := "finished", ended_at := some now } } :=
  rfl

theorem submit_accept_session (st : GState) (player : PlayerRow) (question : Question)
    (sid sel : String) (qi : ℤ) (now : ℚ) :
    (submit_accept st player question sid sel qi now).1.session = st.session :=
  rfl

theorem submit_accept_answered (st : GState) (player : PlayerRow) (question : Question)
    (sid sel : String) (qi : ℤ) (now : ℚ) :
    (submit_accept st player question sid sel qi now).1.answered
      = (qi, player.id) :: st.answered :=
  rfl

theorem submit_accept_answers (st : GState) (player : PlayerRow) (question : Question)
    (sid sel : String) (qi : ℤ) (now : ℚ) :
    ∃ row : AnswerRow,
      (submit_accept st player question sid sel qi now).1.answers = st.answers ++ [row] ∧
      row.question_index = qi ∧ row.player_id = player.id :=
  ⟨_, rfl, rfl, rfl⟩

/-- Every run of `submit_answer` either leaves the state untouched or goes
through the accepting tail, and then the status was in_progress and the
(question, player) pair was not yet in the answered set. -/
theorem submit_answer_shape (st : GState) (sid pin sel : String) (qi : ℤ) (now : ℚ) :
    (submit_answer st sid pin sel qi now).1 = st ∨
    ∃ player question,
      st.session.status = "in_progress" ∧
      (qi, player.id) ∉ st.answered ∧
      submit_answer st sid pin sel qi now = submit_accept st player question sid sel qi now := by
  unfold submit_answer
  repeat' split
  all_goals first
    | exact Or.inl rfl
    | skip
  rename_i hpin hst x2 player hfind x1 qs hquiz hqi hmem x question hget
  exact Or.inr ⟨player, question, not_ne_iff.mp hst, hmem, rfl⟩

theorem start_game_shape (st : GState) (sid pin : String) (now : ℚ) :
    (start_game st sid pin now).1 = st ∨
    (start_game st sid pin now).1 = { st with
      session := { st.session with
        status := "in_progress", started_at := some now, current_question_index := 0 },
      question_started_at := some now,
      answered := [] } := by
  unfold start_game
  repeat' split
  all_goals first
    | exact Or.inl rfl
    | exact Or.inr rfl

theorem next_question_shape (st : GState) (sid pin : String) (now : ℚ) :
    (next_question st sid pin now).1 = st ∨
    next_question st sid pin now = finalize_game st now ∨
    (next_question st sid pin now).1 = { st with
      session := { st.session with
        current_question_index := st.session.current_question_index + 1 },
      question_started_at := some now } := by
  unfold next_question
  dsimp only
  repeat' split
  all_goals first
    | exact Or.inl rfl
    | exact Or.inr (Or.inl rfl)
    | exact Or.inr (Or.inr rfl)

theorem end_game_shape (st : GState) (sid pin : String) (now : ℚ) :
    (end_game st sid pin now).1 = st ∨
    end_game st sid pin now = finalize_game st now := by
  unfold end_game
  repeat' split
  all_goals first
    | exact Or.inl rfl
    | exact Or.inr rfl

/-! ### The session-state invariant over well-sequenced traces -/

/-- Invariant of a coordinator state: the index never drops below −1, the
index is −1 exactly in the lobby, a lobby session has no answers yet, every
stored answer is registered in the runtime answered set, and no two answer
rows share a (question_index, player_id) pair. -/
def InvGood (st : GState) : Prop :=
  -1 ≤ st.session.current_question_index ∧
  (st.session.current_question_index = -1 ↔ st.session.status = "lobby") ∧
  (st.session.status = "lobby" → st.answers = []) ∧
  (∀ a ∈ st.answers, (a.question_index, a.player_id) ∈ st.answered) ∧
  List.Pairwise
    (fun a b : AnswerRow => (a.question_index, a.player_id) ≠ (b.question_index, b.player_id))
    st.answers

theorem invGood_mkInit (id pin quiz_id : String) (quiz : Option (List Question)) :
    InvGood (mkInit id pin quiz_id quiz) := by
  refine ⟨le_refl _, ⟨fun _ => rfl, fun _ => rfl⟩, fun _ => rfl, ?_, ?_⟩
  · intro a ha
    exact absurd ha (List.not_mem_nil a)
  · exact List.Pairwise.nil

theorem invGood_finalize (s : GState) (now : ℚ)
    (hst : s.session.status = "in_progress") (h : InvGood s) :
    InvGood (finalize_game s now).1 := by
  obtain ⟨h1, h2, h3, h4, h5⟩ := h
  rw [finalize_game_state]
  unfold InvGood
  dsimp only
  refine ⟨h1, ?_, ?_, h4, h5⟩
  · constructor
    · intro hidx
      exact absurd (hst.symm.trans (h2.mp hidx)) (by decide)
    · intro hfin
      exact absurd hfin (by decide)
  · intro hfin
    exact absurd hfin (by decide)

theorem invGood_step (s : GState) (op : Op) (hg : OpGuard s op) (h : InvGood s) :
    InvGood (applyOp s op).1 := by
  cases op with
  | joinOp sid pin player_name role newId =>
      obtain ⟨e1, e2, e3, _, _⟩ := join_room_frame s sid pin player_name role newId
      show InvGood (join_room s sid pin player_name role newId).1
      unfold InvGood at h ⊢
      rw [e1, e2, e3]
      exact h
  | discOp sid =>
      obtain ⟨e1, e2, e3, _, _⟩ := disconnect_frame s sid
      show InvGood (disconnect s sid)
      unfold InvGood at h ⊢
      rw [e1, e2, e3]
      exact h
  | startOp sid pin now =>
      have hg' : s.session.status = "lobby" := hg
      obtain ⟨h1, h2, h3, h4, h5⟩ := h
      rcases start_game_shape s sid pin now with he | he
      · show InvGood (start_game s sid pin now).1
        rw [he]
        exact ⟨h1, h2, h3, h4, h5⟩
      · show InvGood (start_game s sid pin now).1
        rw [he, h3 hg']
        unfold InvGood
        dsimp only
        refine ⟨by decide, ?_, fun _ => rfl, ?_, List.Pairwise.nil⟩
        · constructor
          · intro hidx
            exact absurd hidx (by decide)
          · intro hlobby
            exact absurd hlobby (by decide)
        · intro a ha
          exact absurd ha (List.not_mem_nil a)
  | submitOp sid pin sel qi now =>
      rcases submit_answer_shape s sid pin sel qi now with he | ⟨player, question, hst, hmem, he⟩
      · show InvGood (submit_answer s sid pin sel qi now).1
        rw [he]
        exact h
      · obtain ⟨h1, h2, h3, h4, h5⟩ := h
        obtain ⟨row, hrow, hrq, hrp⟩ := submit_accept_answers s player question sid sel qi now
        show InvGood (submit_answer s sid pin sel qi now).1
        rw [he]
        unfold InvGood
        rw [submit_accept_session, submit_accept_answered, hrow]
        refine ⟨h1, h2, ?_, ?_, ?_⟩
        · intro hlobby
          exact absurd (hst.symm.trans hlobby) (by decide)
        · intro a ha
          rcases List.mem_append.mp ha with hin | hnew
          · exact List.mem_cons_of_mem _ (h4 a hin)
          · rw [List.mem_singleton.mp hnew, hrq, hrp]
            exact List.mem_cons_self _ _
        · rw [List.pairwise_append]
          refine ⟨h5, List.pairwise_singleton _ _, ?_⟩
          intro a ha b hb
          rw [List.mem_singleton.mp hb, hrq, hrp]
          intro hcontra
          exact hmem (hcontra ▸ h4 a ha)
  | nextOp sid pin now =>
      have hg' : s.session.status = "in_progress" := hg
      rcases next_question_shape s sid pin now with he | he | he
      · show InvGood (next_question s sid pin now).1
        rw [he]
        exact h
      · show InvGood (next_question s sid pin now).1
        rw [he]
        exact invGood_finalize s now hg' h
      · obtain ⟨h1, h2, h3, h4, h5⟩ := h
        have hne : s.session.current_question_index ≠ -1 := by
          intro hidx
          exact absurd (hg'.symm.trans (h2.mp hidx)) (by decide)
        show InvGood (next_question s sid pin now).1
        rw [he]
        unfold InvGood
        dsimp only
        refine ⟨by omega, ?_, ?_, h4, h5⟩
        · constructor
          · intro hidx
            omega
          · intro hlobby
            exact absurd (hg'.symm.trans hlobby) (by decide)
        · intro hlobby
          exact absurd (hg'.symm.trans hlobby) (by decide)
  | endOp sid pin now =>
      have hg' : s.session.status = "in_progress" := hg
      rcases end_game_shape s sid pin now with he | he
      · show InvGood (end_game s sid pin now).1
        rw [he]
        exact h
      · show InvGood (end_game s sid pin now).1
        rw [he]
        exact invGood_finalize s now hg' h

theorem invGood_reachW (st0 s : GState) (h0 : InvGood st0) (hr : ReachW st0 s) :
    InvGood s := by
  induction hr with
  | refl => exact h0
  | step s' op _ hg ih => exact invGood_step s' op hg ih

/-- While a well-sequenced operation keeps a session in progress, it never
decreases the question index. -/
theorem guarded_step_mono (s : GState) (op : Op) (hg : OpGuard s op)
    (h1 : s.session.status = "in_progress")
    (h2 : (applyOp s op).1.session.status = "in_progress") :
    s.session.current_question_index ≤ (applyOp s op).1.session.current_question_index := by
  cases op with
  | joinOp sid pin player_name role newId =>
      obtain ⟨e1, _, _, _, _⟩ := join_room_frame s sid pin player_name role newId
      show s.session.current_question_index
        ≤ (join_room s sid pin player_name role newId).1.session.current_question_index
      rw [e1]
  | discOp sid =>
      obtain ⟨e1, _, _, _, _⟩ := disconnect_frame s sid
      show s.session.current_question_index ≤ (disconnect s sid).session.current_question_index
      rw [e1]
  | startOp sid pin now =>
      have hg' : s.session.status = "lobby" := hg
      exact absurd (hg'.symm.trans h1) (by decide)
  | submitOp sid pin sel qi now =>
      rcases submit_answer_shape s sid pin sel qi now with he | ⟨player, question, _, _, he⟩
      · show s.session.current_question_index
          ≤ (submit_answer s sid pin sel qi now).1.session.current_question_index
        rw [he]
      · show s.session.current_question_index
          ≤ (submit_answer s sid pin sel qi now).1.session.current_question_index
        rw [he, submit_accept_session]
  | nextOp sid pin now =>
      rcases next_question_shape s sid pin now with he | he | he
      · show s.session.current_question_index
          ≤ (next_question s sid pin now).1.session.current_question_index
        rw [he]
      · exfalso
        have hfin : (applyOp s (.nextOp sid pin now)).1.session.status = "finished" := by
          show (next_question s sid pin now).1.session.status = "finished"
          rw [he, finalize_game_state]
        rw [hfin] at h2
        exact absurd h2 (by decide)
      · show s.session.current_question_index
          ≤ (next_question s sid pin now).1.session.current_question_index
        rw [he]
        dsimp only
        omega
  | endOp sid pin now =>
      rcases end_game_shape s sid pin now with he | he
      · show s.session.current_question_index
          ≤ (end_game s sid pin now).1.session.current_question_index
        rw [he]
      · exfalso
        have hfin : (applyOp s (.endOp sid pin now)).1.session.status = "finished" := by
          show (end_game s sid pin now).1.session.status = "finished"
          rw [he, finalize_game_state]
        rw [hfin] at h2
        exact absurd h2 (by decide)

/-! ### Stability of the leaderboard sort -/

/-- Membership test for one score value, used to state sort stability. -/
def sameScore (sc : ℤ) (e : LeaderboardEntry) : Bool := e.score == sc

theorem filter_orderedInsert_score (a : LeaderboardEntry) (l : List LeaderboardEntry) (sc : ℤ) :
    List.filter (sameScore sc) (List.orderedInsert scoreDesc a l)
      = (if sameScore sc a then [a] else []) ++ List.filter (sameScore sc) l := by
  induction l with
  | nil =>
      by_cases h : sameScore sc a <;> simp [List.orderedInsert, h]
  | cons b l ih =>
      by_cases hab : scoreDesc a b
      · rw [List.orderedInsert, if_pos hab]
        by_cases h : sameScore sc a <;> simp [List.filter_cons, h]
      · rw [List.orderedInsert, if_neg hab]
        have hlt : a.score < b.score := not_le.mp hab
        by_cases h : sameScore sc a
        · have ha : a.score = sc := by
            simpa [sameScore] using h
          have hbne : sameScore sc b = false := by
            simp only [sameScore, beq_eq_false_iff_ne, ne_eq]
            omega
          simp [List.filter_cons, hbne, ih, h]
        · have hfalse : sameScore sc a = false := by
            simpa using h
          by_cases hb : sameScore sc b <;>
            simp [List.filter_cons, hb, ih, hfalse]

theorem filter_insertionSort_score (l : List LeaderboardEntry) (sc : ℤ) :
    List.filter (sameScore sc) (List.insertionSort scoreDesc l)
      = List.filter (sameScore sc) l := by
  induction l with
  | nil => rfl
  | cons a l ih =>
      rw [List.insertionSort, filter_orderedInsert_score, ih, List.filter_cons]
      by_cases h : sameScore sc a <;> simp [h]

/-! ### Noninterference of the correct-answer label -/

/-- Two questions that agree on everything a client may see: prompt, options
and time limit, leaving only the correct-answer label free. -/
def AgreeExceptAnswer (q q' : Question) : Prop :=
  q.question = q'.question ∧ q.options = q'.options ∧
    q.time_limit_seconds = q'.time_limit_seconds

/-- Pointwise agreement of two quizzes except for correct-answer labels. -/
def QuizAgree (qs qs' : List Question) : Prop := List.Forall₂ AgreeExceptAnswer qs qs'

theorem quizAgree_get? {qs qs' : List Question} (h : QuizAgree qs qs') (n : ℕ) :
    (qs.get? n = none ∧ qs'.get? n = none) ∨
    ∃ a b, qs.get? n = some a ∧ qs'.get? n = some b ∧ AgreeExceptAnswer a b := by
  induction h generalizing n with
  | nil => exact Or.inl ⟨rfl, rfl⟩
  | cons hab htail ih =>
      cases n with
      | zero => exact Or.inr ⟨_, _, rfl, rfl, hab⟩
      | succ n => exact ih n

theorem emit_question_agree {qs qs' : List Question} (i : ℤ) (h : QuizAgree qs qs') :
    emit_question i qs = emit_question i qs' := by
  unfold emit_question
  rcases quizAgree_get? h i.toNat with ⟨h1, h2⟩ | ⟨a, b, h1, h2, hab⟩
  · rw [h1, h2]
  · rw [h1, h2]
    dsimp only
    obtain ⟨e1, e2, e3⟩ := hab
    unfold emitQuestionPayload
    rw [e1, e2, e3]

theorem snapshot_agree (s1 s2 : GState) (sid : String)
    (hsess : s2.session = s1.session) (hpl : s2.players = s1.players)
    (hans : s2.answers = s1.answers) {qs qs' : List Question}
    (hq1 : s1.quiz = some qs) (hq2 : s2.quiz = some qs') (h : QuizAgree qs qs') :
    emit_game_snapshot_to_sid s1 sid = emit_game_snapshot_to_sid s2 sid := by
  unfold emit_game_snapshot_to_sid
  rw [hsess, hpl, hans, hq1, hq2]
  split_ifs with h1 h2
  · dsimp only
    rcases quizAgree_get? h s1.session.current_question_index.toNat with
      ⟨ha, hb⟩ | ⟨a, b, ha, hb, hab⟩
    · rw [ha, hb]
    · rw [ha, hb]
      dsimp only
      obtain ⟨e1, e2, e3⟩ := hab
      unfold emitQuestionPayload
      rw [e1, e2, e3]
  · rfl
  · rfl

theorem start_game_agree (st : GState) (sid pin : String) (now : ℚ)
    {qs qs' : List Question} (hq : st.quiz = some qs) (h : QuizAgree qs qs') :
    (start_game st sid pin now).2
      = (start_game { st with quiz := some qs' } sid pin now).2 := by
  unfold start_game
  dsimp only
  rw [hq]
  split_ifs with h1 h2
  · rfl
  · rfl
  · dsimp only
    exact emit_question_agree 0 h

theorem next_question_agree (st : GState) (sid pin : String) (now : ℚ)
    {qs qs' : List Question} (hq : st.quiz = some qs) (h : QuizAgree qs qs') :
    (next_question st sid pin now).2
      = (next_question { st with quiz := some qs' } sid pin now).2 := by
  unfold next_question
  dsimp only
  rw [hq]
  dsimp only
  have hlen : qs.length = qs'.length := List.Forall₂.length_eq h
  rw [← hlen]
  split_ifs with h1 h2 h3
  · rfl
  · rfl
  · rfl
  · dsimp only
    exact emit_question_agree (st.session.current_question_index + 1) h

theorem join_room_agree (st : GState) (sid pin player_name role newId : String)
    {qs qs' : List Question} (hq : st.quiz = some qs) (h : QuizAgree qs qs') :
    (join_room st sid pin player_name role newId).2
      = (join_room { st with quiz := some qs' } sid pin player_name role newId).2 := by
  unfold join_room
  dsimp only
  split_ifs with h1 h2 h3 h4
  · rfl
  · rfl
  · dsimp only
    congr 1
    exact snapshot_agree _ _ sid rfl rfl rfl hq rfl h
  · rfl
  · split
    · dsimp only
      congr 1
      exact snapshot_agree _ _ sid rfl rfl rfl hq rfl h
    · dsimp only
      congr 1
      exact snapshot_agree _ _ sid rfl rfl rfl hq rfl h

/-! ### Concrete fixtures used by witnesses and counterexamples -/

def q0 : Question := ⟨"What is 2+2?", ["3", "4"], "b", 20⟩

def q1 : Question := ⟨"Capital of France?", ["Paris", "Rome"], "a", 30⟩

def demoInit : GState := mkInit "s1" "123456" "quiz1" (some [q0, q1])

/-! ### Claim C9: bounded session-code generation -/

theorem genPinAux_error (taken : String → Bool) (samples : ℕ → String) :
    ∀ (fuel i : ℕ), (∀ j, j < fuel → taken (samples (i + j)) = true) →
      genPinAux taken samples i fuel = .error "Could not generate unique game PIN" := by
  intro fuel
  induction fuel with
  | zero => intro i _; rfl
  | succ fuel ih =>
      intro i h
      have h0 : taken (samples i) = true := by
        have := h 0 (Nat.succ_pos fuel)
        simpa using this
      show genPinAux taken samples i (fuel + 1) = _
      rw [genPinAux, h0]
      exact ih (i + 1) (fun j hj => by
        have := h (j + 1) (Nat.succ_lt_succ hj)
        simpa [Nat.add_assoc, Nat.add_comm 1 j] using this)

theorem genPinAux_ok (taken : String → Bool) (samples : ℕ → String) :
    ∀ (fuel i : ℕ) (pin : String),
      genPinAux taken samples i fuel = .ok pin → taken pin = false := by
  intro fuel
  induction fuel with
  | zero => intro i pin h; exact absurd h (by simp [genPinAux])
  | succ fuel ih =>
      intro i pin h
      rw [genPinAux] at h
      by_cases ht : taken (samples i)
      · rw [if_pos ht] at h
        exact ih (i + 1) pin h
      · rw [if_neg ht] at h
        cases h
        exact Bool.not_eq_true _ |>.mp ht

/-- Claim C9: `_generate_unique_pin` samples the code space at most 30 times
against the session store; if every sampled code (in particular, if every
code of the whole code space) is taken it terminates with the failure
`HTTPException(500, "Could not generate unique game PIN")` after the bound
instead of looping forever, and any code it does return is unused. -/
theorem claim_C9 (taken : String → Bool) (samples : ℕ → String) :
    ((∀ i, i < 30 → taken (samples i) = true) →
      generate_unique_pin taken samples = .error "Could not generate unique game PIN") ∧
    ((∀ p, taken p = true) →
      generate_unique_pin taken samples = .error "Could not generate unique game PIN") ∧
    (∀ pin, generate_unique_pin taken samples = .ok pin → taken pin = false) := by
  refine ⟨?_, ?_, ?_⟩
  · intro h
    exact genPinAux_error taken samples 30 0 (fun j hj => by
      have := h j (by simpa using hj)
      simpa using this)
  · intro h
    exact genPinAux_error taken samples 30 0 (fun j _ => h _)
  · intro pin h
    exact genPinAux_ok taken samples 30 0 pin h

/-- Witness for C9 at a concrete fully-taken code space of one element. -/
theorem claim_C9_witness :
    generate_unique_pin (fun _ => true) (fun _ => "000000")
      = .error "Could not generate unique game PIN" :=
  (claim_C9 (fun _ => true) (fun _ => "000000")).2.1 (fun _ => rfl)

/-! ### Claim C8: leaderboard ordering -/

instance : IsTotal DjParticipant djOrder := by
  constructor
  intro a b
  unfold djOrder
  rcases lt_trichotomy a.total_score b.total_score with h | h | h
  · exact Or.inr (Or.inl h)
  · rcases le_total a.total_response_time b.total_response_time with hrt | hrt
    · exact Or.inl (Or.inr ⟨h, hrt⟩)
    · exact Or.inr (Or.inr ⟨h.symm, hrt⟩)
  · exact Or.inl (Or.inl h)

instance : IsTrans DjParticipant djOrder := by
  constructor
  intro a b c hab hbc
  rcases hab with hab | ⟨he1, hr1⟩
  · rcases hbc with hbc | ⟨he2, hr2⟩
    · exact Or.inl (lt_trans hbc hab)
    · exact Or.inl (by rw [← he2]; exact hab)
  · rcases hbc with hbc | ⟨he2, hr2⟩
    · exact Or.inl (by rw [he1]; exact hbc)
    · exact Or.inr ⟨he1.trans he2, le_trans hr1 hr2⟩

/-- Claim C8 (amended): in the socketio coordinator the leaderboard is
sorted by score descending, keeps ties in stable input order, and is a
permutation of one entry per player row (so its entries are exactly the
joined players, whatever each player answered).  The Django consumer also
returns all participants sorted by score descending, but breaks ties by
accumulated response time ascending (`order_by('-total_score',
'total_response_time')`) rather than by stable input order. -/
theorem claim_C8_amended :
    (∀ (players : List PlayerRow) (answers : List AnswerRow),
      List.Sorted scoreDesc (compute_leaderboard players answers) ∧
      List.Perm (compute_leaderboard players answers) (leaderboard_entries players answers) ∧
      List.Perm ((compute_leaderboard players answers).map (fun e => e.player_id))
        (players.map (fun p => p.id)) ∧
      (∀ sc : ℤ, List.filter (sameScore sc) (compute_leaderboard players answers)
          = List.filter (sameScore sc) (leaderboard_entries players answers))) ∧
    (∀ ps : List DjParticipant,
      List.Sorted djOrder (django_get_leaderboard ps) ∧
      List.Perm (django_get_leaderboard ps) ps) := by
  constructor
  · intro players answers
    refine ⟨List.sorted_insertionSort scoreDesc _, List.perm_insertionSort scoreDesc _, ?_, ?_⟩
    · have hperm := (List.perm_insertionSort scoreDesc (leaderboard_entries players answers)).map
        (fun e => e.player_id)
      refine hperm.trans ?_
      unfold leaderboard_entries
      rw [List.map_map]
      exact List.Perm.refl _
    · intro sc
      exact filter_insertionSort_score _ sc
  · intro ps
    exact ⟨List.sorted_insertionSort djOrder ps, List.perm_insertionSort djOrder ps⟩

def djAmy : DjParticipant := ⟨"amy", 10, 0, 5⟩

def djBob : DjParticipant := ⟨"bob", 10, 0, 2⟩

/-- Counterexample for C8: with two participants tied at score 10, input
order [amy, bob], the Django leaderboard returns [bob, amy] — the tie is
broken by total response time ascending, not left in stable input order —
while the socketio leaderboard on the matching input keeps [amy, bob]. -/
theorem claim_C8_counterexample :
    django_get_leaderboard [djAmy, djBob] = [djBob, djAmy] ∧
    django_get_leaderboard [djAmy, djBob] ≠ [djAmy, djBob] ∧
    compute_leaderboard
        [⟨"a", none, "amy", 10⟩, ⟨"b", none, "bob", 10⟩] []
      = [⟨"a", "amy", 10, 0⟩, ⟨"b", "bob", 10, 0⟩] := by
  refine ⟨by decide, by decide, by decide⟩

/-! ### Claim C2: time-weighted scoring -/

theorem submit_points_false (elapsed limit : ℚ) : submit_points false elapsed limit = 0 :=
  rfl

theorem submit_points_true (elapsed limit : ℚ) :
    submit_points true elapsed limit
      = 600 + ⌊max 0 (min 1 ((limit - elapsed) / limit)) * 400⌋ := by
  unfold submit_points
  rw [if_pos rfl]
  rw [show ((600 : ℚ)) = ((600 : ℤ) : ℚ) by norm_num, Int.floor_int_add]

theorem speed_frac_bounds (elapsed limit : ℚ) :
    0 ≤ max 0 (min 1 ((limit - elapsed) / limit)) ∧
      max 0 (min 1 ((limit - elapsed) / limit)) ≤ 1 := by
  constructor
  · exact le_max_left 0 _
  · exact max_le (by norm_num) (min_le_left 1 _)

/-- Claim C2 (amended): in the socketio coordinator the claim holds exactly
with base 600 and bonus range 400: an incorrect answer scores 0; a correct
answer scores `600 + ⌊clamp((limit − elapsed)/limit, 0, 1) × 400⌋` (elapsed
is clamped at 0 by the caller), hence between 600 and 1000, and 900 at
elapsed 5 s of a 20 s limit.  The Django consumer uses different constants
(base 100, bonus 50) and clamps its speed ratio only from below, so its
guarantee holds only for non-negative client-reported response times:
incorrect or empty answers score 0 and correct answers score between 100
and 150. -/
theorem claim_C2_amended :
    (∀ elapsed limit : ℚ, submit_points false elapsed limit = 0) ∧
    (∀ elapsed limit : ℚ,
      submit_points true elapsed limit
        = 600 + ⌊max 0 (min 1 ((limit - elapsed) / limit)) * 400⌋) ∧
    (∀ elapsed limit : ℚ, 0 < limit →
      600 ≤ submit_points true elapsed limit ∧ submit_points true elapsed limit ≤ 1000) ∧
    submit_points true 5 20 = 900 ∧
    (∀ (selected correct_answer : String) (rt tpq : ℚ), 0 ≤ rt → 0 < tpq →
      ((django_answer_points selected correct_answer rt tpq).1 = false →
        (django_answer_points selected correct_answer rt tpq).2 = 0) ∧
      ((django_answer_points selected correct_answer rt tpq).1 = true →
        100 ≤ (django_answer_points selected correct_answer rt tpq).2 ∧
          (django_answer_points selected correct_answer rt tpq).2 ≤ 150)) := by
  refine ⟨submit_points_false, submit_points_true, ?_, by norm_num [submit_points], ?_⟩
  · intro elapsed limit _
    obtain ⟨h0, h1⟩ := speed_frac_bounds elapsed limit
    rw [submit_points_true]
    constructor
    · have : (0 : ℤ) ≤ ⌊max 0 (min 1 ((limit - elapsed) / limit)) * 400⌋ := by
        apply Int.floor_nonneg.mpr
        positivity
      omega
    · have : ⌊max 0 (min 1 ((limit - elapsed) / limit)) * 400⌋ ≤ (400 : ℤ) := by
        rw [show ((400 : ℤ)) = ⌊((400 : ℤ) : ℚ)⌋ by rw [Int.floor_intCast]]
        apply Int.floor_le_floor
        nlinarith
      omega
  · intro selected correct_answer rt tpq hrt htpq
    unfold django_answer_points
    by_cases hempty : pyStrip selected = ""
    · rw [if_pos hempty]
      exact ⟨fun _ => rfl, fun hc => absurd hc (by simp)⟩
    · rw [if_neg hempty]
      by_cases hc : pyUpper selected == pyUpper correct_answer
      · constructor
        · intro hfalse
          exact absurd hfalse (by simp [hc])
        · intro _
          have hfrac0 : (0 : ℚ) ≤ max 0 (tpq - rt) / tpq :=
            div_nonneg (le_max_left 0 _) (le_of_lt htpq)
          have hfrac1 : max 0 (tpq - rt) / tpq ≤ 1 := by
            rw [div_le_one htpq]
            exact max_le (le_of_lt htpq) (by linarith)
          have hb0 : (0 : ℤ) ≤ ⌊max 0 (tpq - rt) / tpq * 50⌋ := by
            apply Int.floor_nonneg.mpr
            positivity
          have hb1 : ⌊max 0 (tpq - rt) / tpq * 50⌋ ≤ (50 : ℤ) := by
            rw [show ((50 : ℤ)) = ⌊((50 : ℤ) : ℚ)⌋ by rw [Int.floor_intCast]]
            apply Int.floor_le_floor
            nlinarith
          simp only [hc, if_pos, htpq, and_true]
          constructor <;> [omega; omega]
      · constructor
        · intro _
          simp [hc, htpq]
        · intro htrue
          exact absurd htrue (by simp [hc])

/-- Witness for C2 (amended) at elapsed 5 s, limit 20 s, and a wrong Django
answer at response time 5 s. -/
theorem claim_C2_amended_witness :
    (0 : ℚ) < 20 ∧
    (600 ≤ submit_points true 5 20 ∧ submit_points true 5 20 ≤ 1000) ∧
    (0 : ℚ) ≤ 5 ∧
    ((django_answer_points "B" "A" 5 20).1 = false →
      (django_answer_points "B" "A" 5 20).2 = 0) :=
  ⟨by norm_num, claim_C2_amended.2.2.1 5 20 (by norm_num),
    by norm_num,
    (claim_C2_amended.2.2.2.2 "B" "A" 5 20 (by norm_num) (by norm_num)).1⟩

/-- Counterexample for C2: the two implementations do not share platform-wide
constants — at elapsed 5 s of a 20 s limit the socketio coordinator awards
900 points but the Django consumer awards 137 — and the Django consumer
violates `points ≤ base + bonus_range`: a client-supplied response time of
−20 s on a 20 s limit yields 200 points, above its 100 + 50 ceiling,
because the speed ratio is clamped only from below. -/
theorem claim_C2_counterexample :
    django_answer_points "A" "a" (-20) 20 = (true, 200) ∧
    100 + 50 < (django_answer_points "A" "a" (-20) 20).2 ∧
    submit_points true 5 20 = 900 ∧
    (django_answer_points "A" "a" 5 20).2 = 137 ∧
    (137 : ℤ) ≠ 900 := by
  have hne : ¬(pyStrip "A" = "") := by decide
  have hup : (pyUpper "A" == pyUpper "a") = true := by decide
  have h1 : django_answer_points "A" "a" (-20) 20 = (true, 200) := by
    norm_num [django_answer_points, hne, hup]
  have h2 : (django_answer_points "A" "a" 5 20).2 = 137 := by
    norm_num [django_answer_points, hne, hup]
  refine ⟨h1, by rw [h1]; norm_num, by norm_num [submit_points], h2, by norm_num⟩

/-! ### Claim C1: duplicate answers -/

/-- Claim C1 (amended): in the socketio coordinator, a submission for a
(question_index, player) pair already in the runtime answered set is
acknowledged to the submitter alone with reason "Already answered" and the
state is returned unchanged; and along well-sequenced traces (start_game
issued only in the lobby) no two Answer rows ever share a (question_index,
player) pair.  In the Django consumer the uniqueness also holds per
(participant, question), but a repeated submission is merged rather than
rejected: `update_or_create` replaces the stored answer and the
participant's score is recomputed (see the counterexample). -/
theorem claim_C1_amended :
    (∀ (st : GState) (sid pin sel : String) (qi : ℤ) (now : ℚ) (player : PlayerRow),
      st.session.pin = pin →
      st.session.status = "in_progress" →
      st.players.find? (fun p => p.sid == some sid) = some player →
      st.quiz.isSome →
      qi = st.session.current_question_index →
      (qi, player.id) ∈ st.answered →
      submit_answer st sid pin sel qi now
        = (st, [.answerAckRejected (.toSid sid) "Already answered"])) ∧
    (∀ (id pin quiz_id : String) (quiz : Option (List Question)) (s : GState),
      ReachW (mkInit id pin quiz_id quiz) s →
      List.Pairwise (fun a b : AnswerRow =>
        (a.question_index, a.player_id) ≠ (b.question_index, b.player_id)) s.answers) := by
  constructor
  · intro st sid pin sel qi now player hpin hst hfind hquiz hqi hmem
    obtain ⟨qs, hqs⟩ := Option.isSome_iff_exists.mp hquiz
    unfold submit_answer
    rw [if_neg (not_ne_iff.mpr hpin)]
    rw [if_neg (not_ne_iff.mpr hst)]
    rw [hfind]
    dsimp only
    rw [hqs]
    dsimp only
    rw [if_neg (not_ne_iff.mpr hqi)]
    rw [if_pos hmem]
  · intro id pin quiz_id quiz s hr
    exact (invGood_reachW _ s (invGood_mkInit id pin quiz_id quiz) hr).2.2.2.2

/-- A concrete mid-game state: alice (socket "sidA") has already answered
question 0 of the demo quiz. -/
def c1State : GState :=
  { session := ⟨"s1", "123456", "quiz1", "in_progress", 0, some 1, none⟩
    players := [⟨"p1", some "sidA", "alice", 900⟩]
    answers := [⟨"p1", 0, "b", true, 900, 5000⟩]
    quiz := some [q0, q1]
    host_sid := some "h"
    question_started_at := some 1
    answered := [(0, "p1")] }

/-- Witness for C1 (amended): alice resubmits for question 0 and is
rejected with no state change; the empty trace satisfies the uniqueness
invariant. -/
theorem claim_C1_amended_witness :
    submit_answer c1State "sidA" "123456" "a" 0 30
      = (c1State, [.answerAckRejected (.toSid "sidA") "Already answered"]) ∧
    List.Pairwise (fun a b : AnswerRow =>
      (a.question_index, a.player_id) ≠ (b.question_index, b.player_id)) demoInit.answers :=
  ⟨claim_C1_amended.1 c1State "sidA" "123456" "a" 0 30 ⟨"p1", some "sidA", "alice", 900⟩
      rfl rfl (by decide) (by decide) rfl (by decide),
    claim_C1_amended.2 "s1" "123456" "quiz1" (some [q0, q1]) demoInit ReachW.refl⟩

def djQ1 : DjQuestion := ⟨"dq1", "A"⟩

def djZoe : DjParticipant := ⟨"zoe", 150, 1, 5⟩

def djSt0 : DjState := ⟨[djZoe], [⟨"zoe", "dq1", "A", true, 5, 150⟩], [djQ1], 20⟩

/-- Counterexample for C1: in the Django consumer
(`save_answer`, consumers.py lines 306–345) a second submission for the
same (participant, question) pair is not rejected — `update_or_create`
replaces the stored answer (zoe's correct "A" worth 150 becomes an
incorrect "B" worth 0), the participant's score is recomputed (150 → 0, not
left unchanged) and her accumulated response time grows to 12, so the state
changes where the claim requires a rejection acknowledgement with no state
change. -/
theorem claim_C1_counterexample :
    (django_save_answer djSt0 "zoe" "dq1" "B" 7).answers
        = [⟨"zoe", "dq1", "B", false, 7, 0⟩] ∧
    (django_save_answer djSt0 "zoe" "dq1" "B" 7).participants
        = [⟨"zoe", 0, 0, djZoe.total_response_time + 7⟩] ∧
    djZoe.total_response_time + 7 = 12 ∧
    djZoe.total_score = 150 ∧
    django_save_answer djSt0 "zoe" "dq1" "B" 7 ≠ djSt0 ∧
    (django_save_answer djSt0 "zoe" "dq1" "B" 7).answers.length
      = djSt0.answers.length := by
  have hp : (django_save_answer djSt0 "zoe" "dq1" "B" 7).participants
      = [⟨"zoe", 0, 0, djZoe.total_response_time + 7⟩] := rfl
  refine ⟨rfl, hp, by norm_num [djZoe], rfl, ?_, rfl⟩
  intro hc
  have hsame : (django_save_answer djSt0 "zoe" "dq1" "B" 7).participants
      = djSt0.participants := by rw [hc]
  rw [hp] at hsame
  have h0 := congrArg (fun l => (l.headD ⟨"", 0, 0, 0⟩).total_score) hsame
  simp [djSt0, djZoe] at h0

/-! ### Claim C10: missing question-start timestamp -/

theorem submit_points_zero_elapsed (limit : ℚ) (hlim : 0 < limit) :
    submit_points true 0 limit = 1000 := by
  rw [submit_points_true, sub_zero, div_self (ne_of_gt hlim), min_self,
    max_eq_right zero_le_one]
  norm_num

theorem submit_points_le (elapsed limit : ℚ) :
    submit_points true elapsed limit ≤ 1000 := by
  obtain ⟨h0, h1⟩ := speed_frac_bounds elapsed limit
  rw [submit_points_true]
  have hfl : ⌊max 0 (min 1 ((limit - elapsed) / limit)) * 400⌋ ≤ (400 : ℤ) := by
    rw [show ((400 : ℤ)) = ⌊((400 : ℤ) : ℚ)⌋ by rw [Int.floor_intCast]]
    apply Int.floor_le_floor
    nlinarith
  omega

/-- Claim C10: when the runtime-registry entry carries no question-start
timestamp, `submit_answer` defaults it to the current time
(`runtime.get("question_started_at", time.time())`), so elapsed is 0 and a
correct answer is always awarded the maximum 600 + 400 = 1000 points,
whatever the wall clock says and however long the question has really been
open; 1000 is the ceiling of `submit_points` for every elapsed time. -/
theorem claim_C10 (st : GState) (sid pin sel : String) (qi : ℤ) (now : ℚ)
    (player : PlayerRow) (qs : List Question) (question : Question)
    (hpin : st.session.pin = pin) (hst : st.session.status = "in_progress")
    (hfind : st.players.find? (fun p => p.sid == some sid) = some player)
    (hquiz : st.quiz = some qs) (hqi : qi = st.session.current_question_index)
    (hmem : (qi, player.id) ∉ st.answered)
    (hget : qs.get? qi.toNat = some question)
    (hnots : st.question_started_at = none)
    (hsel : sel = question.correct_option_id)
    (hlim : 0 < question.time_limit_seconds) :
    (submit_answer st sid pin sel qi now).2
      = [.answerAckAccepted (.toSid sid) true 1000 (player.score + 1000)] ∧
    (∀ elapsed : ℚ, submit_points true elapsed question.time_limit_seconds ≤ 1000) := by
  have hrun : submit_answer st sid pin sel qi now
      = submit_accept st player question sid sel qi now := by
    unfold submit_answer
    rw [if_neg (not_ne_iff.mpr hpin), if_neg (not_ne_iff.mpr hst), hfind]
    dsimp only
    rw [hquiz]
    dsimp only
    rw [if_neg (not_ne_iff.mpr hqi), if_neg hmem, hget]
  constructor
  · rw [hrun]
    unfold submit_accept
    dsimp only
    rw [hnots]
    dsimp only [Option.getD]
    rw [sub_self, max_self 0, hsel]
    simp only [beq_self_eq_true]
    rw [submit_points_zero_elapsed question.time_limit_seconds hlim]
  · intro elapsed
    exact submit_points_le elapsed question.time_limit_seconds

/-- Witness for C10: alice answers question 0 of the demo quiz correctly in
a session whose runtime entry was rebuilt without a timestamp; at wall
clock 999 she still receives 1000 points on top of her current 0. -/
def c10State : GState :=
  { session := ⟨"s1", "123456", "quiz1", "in_progress", 0, some 1, none⟩
    players := [⟨"p1", some "sidA", "alice", 0⟩]
    answers := []
    quiz := some [q0, q1]
    host_sid := some "h"
    question_started_at := none
    answered := [] }

theorem claim_C10_witness :
    (submit_answer c10State "sidA" "123456" "b" 0 999).2
      = [.answerAckAccepted (.toSid "sidA") true 1000 (0 + 1000)] ∧
    submit_points true 17 q0.time_limit_seconds ≤ 1000 := by
  have h := claim_C10 c10State "sidA" "123456" "b" 0 999
    ⟨"p1", some "sidA", "alice", 0⟩ [q0, q1] q0
    rfl rfl (by decide) rfl rfl (by decide) (by decide) rfl rfl (by norm_num [q0])
  exact ⟨h.1, h.2 17⟩

/-! ### Claim C3: host advance -/

/-- Claim C3: a host-issued `next_question` on an in-progress session with
resolvable quiz content either — when `current_question_index + 1` is still
below the question count — increments the index by exactly one, resets the
runtime question-start timestamp to now, and broadcasts the new question
payload to the room, or — when `current_question_index + 1` reaches the
question count — finalizes the session: status becomes "finished", the
ended timestamp is set, and the leaderboard is broadcast to the room. -/
theorem claim_C3 (st : GState) (sid pin : String) (now : ℚ) (qs : List Question)
    (hpin : st.session.pin = pin) (hhost : st.host_sid = some sid)
    (hquiz : st.quiz = some qs) (hst : st.session.status = "in_progress")
    (hidx : 0 ≤ st.session.current_question_index) :
    (st.session.current_question_index + 1 < (qs.length : ℤ) →
      ∃ q, qs.get? (st.session.current_question_index + 1).toNat = some q ∧
        next_question st sid pin now
          = ({ st with
                session := { st.session with
                  current_question_index := st.session.current_question_index + 1 },
                question_started_at := some now },
              [.questionStarted .room
                (emitQuestionPayload (st.session.current_question_index + 1) q)])) ∧
    ((qs.length : ℤ) ≤ st.session.current_question_index + 1 →
      next_question st sid pin now
        = ({ st with
              session := { st.session with status := "finished", ended_at := some now } },
            [.gameEnded .room (compute_leaderboard st.players st.answers)])) := by
  constructor
  · intro hlt
    have hn : (st.session.current_question_index + 1).toNat < qs.length := by omega
    refine ⟨qs.get ⟨_, hn⟩, List.get?_eq_get hn, ?_⟩
    unfold next_question
    rw [if_neg (not_ne_iff.mpr hpin), if_neg (not_ne_iff.mpr hhost), hquiz]
    dsimp only
    rw [if_neg (not_le.mpr hlt)]
    unfold emit_question
    rw [List.get?_eq_get hn]
  · intro hge
    unfold next_question
    rw [if_neg (not_ne_iff.mpr hpin), if_neg (not_ne_iff.mpr hhost), hquiz]
    dsimp only
    rw [if_pos hge]
    unfold finalize_game
    rw [hquiz]

/-- A demo session in progress at question 0 with the host "h" attached. -/
def c3State : GState :=
  { session := ⟨"s1", "123456", "quiz1", "in_progress", 0, some 1, none⟩
    players := [⟨"p1", some "sidA", "alice", 900⟩]
    answers := []
    quiz := some [q0, q1]
    host_sid := some "h"
    question_started_at := some 1
    answered := [] }

/-- The same session at the last question. -/
def c3Last : GState :=
  { session := ⟨"s1", "123456", "quiz1", "in_progress", 1, some 1, none⟩
    players := [⟨"p1", some "sidA", "alice", 900⟩]
    answers := []
    quiz := some [q0, q1]
    host_sid := some "h"
    question_started_at := some 1
    answered := [] }

/-- Witness for C3: advancing from question 0 of the 2-question demo quiz
moves the index to 1 and resets the timestamp; advancing from question 1
finishes the session. -/
theorem claim_C3_witness :
    (next_question c3State "h" "123456" 9).1.session.current_question_index = 1 ∧
    (next_question c3State "h" "123456" 9).1.question_started_at = some 9 ∧
    (next_question c3Last "h" "123456" 9).1.session.status = "finished" := by
  have h0 := claim_C3 c3State "h" "123456" 9 [q0, q1] rfl rfl rfl rfl (by decide)
  obtain ⟨q, hq, heq⟩ := h0.1 (by decide)
  have h1 := claim_C3 c3Last "h" "123456" 9 [q0, q1] rfl rfl rfl rfl (by decide)
  have heq2 := h1.2 (by decide)
  rw [heq, heq2]
  exact ⟨rfl, rfl, rfl⟩

/-! ### Claim C5: finalizing an already-finished session -/

/-- Claim C5: finalizing a session whose status is already "finished" — via
`_finalize_game` directly, via host `end_game`, or via `next_question`
advancing past the last question — does not corrupt state: the session
stays "finished" and no player row, Answer row, or question index changes
(only the ended timestamp is overwritten and the leaderboard re-broadcast,
neither of which the claim protects). -/
theorem claim_C5 (st : GState) (sid pin : String) (now : ℚ)
    (hfin : st.session.status = "finished") :
    ((finalize_game st now).1.session.status = "finished" ∧
      (finalize_game st now).1.players = st.players ∧
      (finalize_game st now).1.answers = st.answers ∧
      (finalize_game st now).1.session.current_question_index
        = st.session.current_question_index) ∧
    (st.session.pin = pin → st.host_sid = some sid →
      end_game st sid pin now = finalize_game st now) ∧
    (∀ qs : List Question, st.session.pin = pin → st.host_sid = some sid →
      st.quiz = some qs → (qs.length : ℤ) ≤ st.session.current_question_index + 1 →
      next_question st sid pin now = finalize_game st now) := by
  refine ⟨⟨rfl, rfl, rfl, rfl⟩, ?_, ?_⟩
  · intro hpin hhost
    unfold end_game
    rw [if_neg (not_ne_iff.mpr hpin), if_neg (not_ne_iff.mpr hhost)]
  · intro qs hpin hhost hquiz hge
    unfold next_question
    rw [if_neg (not_ne_iff.mpr hpin), if_neg (not_ne_iff.mpr hhost), hquiz]
    dsimp only
    rw [if_pos hge]

/-- A finished demo session. -/
def c5State : GState :=
  { session := ⟨"s1", "123456", "quiz1", "finished", 1, some 1, some 2⟩
    players := [⟨"p1", some "sidA", "alice", 900⟩]
    answers := [⟨"p1", 0, "b", true, 900, 5000⟩]
    quiz := some [q0, q1]
    host_sid := some "h"
    question_started_at := some 1
    answered := [(0, "p1")] }

/-- Witness for C5: re-finalizing the finished demo session (directly and
through `end_game`) keeps it finished with scores, answers and index
untouched. -/
theorem claim_C5_witness :
    ((finalize_game c5State 7).1.session.status = "finished" ∧
      (finalize_game c5State 7).1.players = c5State.players ∧
      (finalize_game c5State 7).1.answers = c5State.answers ∧
      (finalize_game c5State 7).1.session.current_question_index
        = c5State.session.current_question_index) ∧
    end_game c5State "h" "123456" 7 = finalize_game c5State 7 := by
  have h := claim_C5 c5State "h" "123456" 7 rfl
  exact ⟨h.1, h.2.1 rfl rfl⟩

/-! ### Claim C6: the correct answer never reaches the room -/

/-- Claim C6: every question payload built for a broadcast or a
resynchronization snapshot is a `QuestionPayload` — index, prompt, options
and time limit only, with no field for the correct option — and the events
emitted by the snapshot, game start, advance and (re)join handlers are
unchanged when every correct-answer label of the quiz is replaced
arbitrarily: the correct answer never influences (and so never reaches) any
payload these handlers send. -/
theorem claim_C6 (st : GState) (sid pin player_name role newId : String) (now : ℚ)
    (qs qs' : List Question) (hquiz : st.quiz = some qs) (hagree : QuizAgree qs qs') :
    emit_game_snapshot_to_sid st sid
        = emit_game_snapshot_to_sid { st with quiz := some qs' } sid ∧
    (start_game st sid pin now).2
        = (start_game { st with quiz := some qs' } sid pin now).2 ∧
    (next_question st sid pin now).2
        = (next_question { st with quiz := some qs' } sid pin now).2 ∧
    (join_room st sid pin player_name role newId).2
        = (join_room { st with quiz := some qs' } sid pin player_name role newId).2 :=
  ⟨snapshot_agree st _ sid rfl rfl rfl hquiz rfl hagree,
    start_game_agree st sid pin now hquiz hagree,
    next_question_agree st sid pin now hquiz hagree,
    join_room_agree st sid pin player_name role newId hquiz hagree⟩

/-- The demo questions with their correct-answer labels swapped. -/
def q0x : Question := ⟨"What is 2+2?", ["3", "4"], "a", 20⟩

def q1x : Question := ⟨"Capital of France?", ["Paris", "Rome"], "b", 30⟩

/-- Witness for C6: on the live demo session, flipping both correct-answer
labels leaves the snapshot and the start/advance/join event lists
untouched. -/
theorem claim_C6_witness :
    emit_game_snapshot_to_sid c3State "sidA"
        = emit_game_snapshot_to_sid { c3State with quiz := some [q0x, q1x] } "sidA" ∧
    (start_game c3State "h" "123456" 9).2
        = (start_game { c3State with quiz := some [q0x, q1x] } "h" "123456" 9).2 ∧
    (next_question c3State "h" "123456" 9).2
        = (next_question { c3State with quiz := some [q0x, q1x] } "h" "123456" 9).2 ∧
    (join_room c3State "sidB" "123456" "bob" "player" "p2").2
        = (join_room { c3State with quiz := some [q0x, q1x] } "sidB" "123456" "bob"
            "player" "p2").2 := by
  have hagree : QuizAgree [q0, q1] [q0x, q1x] :=
    .cons ⟨rfl, rfl, rfl⟩ (.cons ⟨rfl, rfl, rfl⟩ .nil)
  have h := claim_C6 c3State "sidB" "123456" "bob" "player" "p2" 9 [q0, q1] [q0x, q1x]
    rfl hagree
  have h2 := claim_C6 c3State "h" "123456" "bob" "player" "p2" 9 [q0, q1] [q0x, q1x]
    rfl hagree
  have h3 := claim_C6 c3State "sidA" "123456" "bob" "player" "p2" 9 [q0, q1] [q0x, q1x]
    rfl hagree
  exact ⟨h3.1, h2.2.1, h2.2.2.1, h.2.2.2⟩

/-! ### Claim C7: reconnection re-uses the player identity -/

theorem map_reattach_proj {α : Type} (f : PlayerRow → α)
    (hf : ∀ (q : PlayerRow) (s : String), f { q with sid := some s } = f q)
    (ps : List PlayerRow) (pid s : String) :
    (ps.map (fun q => if q.id == pid then { q with sid := some s } else q)).map f
      = ps.map f := by
  induction ps with
  | nil => rfl
  | cons p ps ih =>
      simp only [List.map_cons, ih]
      congr 1
      split
      · exact hf p s
      · rfl

/-- Claim C7: a player join on an existing session whose name matches an
existing player row case-insensitively, while that row has no connection
handle attached, re-uses the row: no row is created or removed, ids, names
and cumulative scores are all carried over unchanged, the matched row gets
the joining connection handle, and — when the session is in progress on a
live question — the joining connection receives that question as a
resynchronization snapshot rather than a stale lobby view. -/
theorem claim_C7 (st : GState) (sid pin player_name role newId : String) (p : PlayerRow)
    (hpinlen : pin.length = 6) (hpin : st.session.pin = pin)
    (hrole : ¬role = "host") (hname : 2 ≤ player_name.length)
    (hfind : st.players.find? (fun q => pyLower q.name == pyLower player_name) = some p)
    (hdetached : p.sid = none) :
    (join_room st sid pin player_name role newId).1.players.length
        = st.players.length ∧
    (join_room st sid pin player_name role newId).1.players.map (fun q => q.id)
        = st.players.map (fun q => q.id) ∧
    (join_room st sid pin player_name role newId).1.players.map (fun q => q.name)
        = st.players.map (fun q => q.name) ∧
    (join_room st sid pin player_name role newId).1.players.map (fun q => q.score)
        = st.players.map (fun q => q.score) ∧
    (∀ q ∈ (join_room st sid pin player_name role newId).1.players,
      q.id = p.id → q.sid = some sid) ∧
    (∀ (qs : List Question) (question : Question),
      st.session.status = "in_progress" → 0 ≤ st.session.current_question_index →
      st.quiz = some qs →
      qs.get? st.session.current_question_index.toNat = some question →
      Event.questionStarted (.toSid sid)
          (emitQuestionPayload st.session.current_question_index question)
        ∈ (join_room st sid pin player_name role newId).2) := by
  have hjoin : join_room st sid pin player_name role newId
      = (let reattached :=
          st.players.map (fun q => if q.id == p.id then { q with sid := some sid } else q)
         let st' := { st with players := reattached }
         (st', [.joinSuccess (.toSid sid) "player"] ++ emit_lobby st'
            ++ emit_game_snapshot_to_sid st' sid)) := by
    unfold join_room
    rw [if_neg (not_ne_iff.mpr hpinlen), if_neg (not_ne_iff.mpr hpin), if_neg hrole,
      if_neg (not_lt.mpr hname), hfind]
  rw [hjoin]
  dsimp only
  refine ⟨List.length_map _ _,
    map_reattach_proj (fun q => q.id) (fun _ _ => rfl) st.players p.id sid,
    map_reattach_proj (fun q => q.name) (fun _ _ => rfl) st.players p.id sid,
    map_reattach_proj (fun q => q.score) (fun _ _ => rfl) st.players p.id sid, ?_, ?_⟩
  · intro q hq hid
    rcases List.mem_map.mp hq with ⟨q0, _, hq0eq⟩
    by_cases hb : (q0.id == p.id)
    · rw [if_pos hb] at hq0eq
      rw [← hq0eq]
    · rw [if_neg hb] at hq0eq
      exact absurd (beq_iff_eq.mpr (hq0eq ▸ hid)) hb
  · intro qs question hst hidx hquiz hget
    have hsnap : emit_game_snapshot_to_sid
        { st with players :=
            st.players.map (fun q => if q.id == p.id then { q with sid := some sid } else q) }
        sid
        = [.questionStarted (.toSid sid)
            (emitQuestionPayload st.session.current_question_index question)] := by
      unfold emit_game_snapshot_to_sid
      rw [if_pos (⟨hst, hidx⟩ : st.session.status = "in_progress"
        ∧ 0 ≤ st.session.current_question_index)]
      dsimp only
      rw [hquiz]
      dsimp only
      rw [hget]
    rw [hsnap]
    exact List.mem_append_right _ (List.mem_singleton.mpr rfl)

/-- A session in progress whose player "Alice" has dropped her connection. -/
def c7State : GState :=
  { session := ⟨"s1", "123456", "quiz1", "in_progress", 0, some 1, none⟩
    players := [⟨"p1", none, "Alice", 900⟩]
    answers := []
    quiz := some [q0, q1]
    host_sid := some "h"
    question_started_at := some 1
    answered := [] }

/-- Witness for C7: "ALICE" rejoins on a new socket: same single row, score
900 kept, and the live question 0 is re-sent to the new socket. -/
theorem claim_C7_witness :
    (join_room c7State "sidNew" "123456" "ALICE" "player" "pX").1.players.map
        (fun q => q.score) = c7State.players.map (fun q => q.score) ∧
    (join_room c7State "sidNew" "123456" "ALICE" "player" "pX").1.players.length
        = c7State.players.length ∧
    Event.questionStarted (.toSid "sidNew") (emitQuestionPayload 0 q0)
        ∈ (join_room c7State "sidNew" "123456" "ALICE" "player" "pX").2 := by
  have h := claim_C7 c7State "sidNew" "123456" "ALICE" "player" "pX"
    ⟨"p1", none, "Alice", 900⟩ (by decide) rfl (by decide) (by decide) (by decide) rfl
  exact ⟨h.2.2.2.1, h.1, h.2.2.2.2.2 [q0, q1] q0 rfl (by decide) rfl (by decide)⟩

/-! ### Claim C4: index/status invariant -/

/-- Claim C4 (amended): over well-sequenced traces — the host starts only a
lobby session and advances or ends only an in-progress one, an ordering the
handlers themselves do not enforce — `current_question_index` equals −1
exactly when the status is "lobby", and no operation that keeps the session
in progress decreases the index.  Out-of-order host events break both
halves (see the counterexample). -/
theorem claim_C4_amended (id pin quiz_id : String) (quiz : Option (List Question))
    (s : GState) (hr : ReachW (mkInit id pin quiz_id quiz) s) :
    (s.session.current_question_index = -1 ↔ s.session.status = "lobby") ∧
    (∀ op : Op, OpGuard s op → s.session.status = "in_progress" →
      (applyOp s op).1.session.status = "in_progress" →
      s.session.current_question_index
        ≤ (applyOp s op).1.session.current_question_index) :=
  ⟨(invGood_reachW _ s (invGood_mkInit id pin quiz_id quiz) hr).2.1,
    fun op hg h1 h2 => guarded_step_mono s op hg h1 h2⟩

/-- The demo session after its host joined. -/
def c4sHost : GState := (join_room demoInit "h" "123456" "" "host" "u1").1

/-- The demo session started by its host. -/
def c4sStarted : GState := (start_game c4sHost "h" "123456" 1).1

/-- Witness for C4 (amended) along the well-sequenced trace join-host then
start: the started session is out of the lobby with index 0, and a guarded
advance does not decrease the index. -/
theorem claim_C4_amended_witness :
    (c4sStarted.session.current_question_index = -1 ↔
      c4sStarted.session.status = "lobby") ∧
    c4sStarted.session.current_question_index
      ≤ (applyOp c4sStarted (.nextOp "h" "123456" 2)).1.session.current_question_index := by
  have hr : ReachW demoInit c4sStarted :=
    ReachW.step c4sHost (.startOp "h" "123456" 1)
      (ReachW.step demoInit (.joinOp "h" "123456" "" "host" "u1") ReachW.refl trivial)
      (show c4sHost.session.status = "lobby" by decide)
  have h := claim_C4_amended "s1" "123456" "quiz1" (some [q0, q1]) c4sStarted hr
  exact ⟨h.1, h.2 (.nextOp "h" "123456" 2)
    (show c4sStarted.session.status = "in_progress" by decide) (by decide) (by decide)⟩

/-- The demo session ended by the host while still in the lobby. -/
def c4EndedLobby : GState := (end_game c4sHost "h" "123456" 5).1

/-- The started demo session advanced to question 1. -/
def c4Advanced : GState := (next_question c4sStarted "h" "123456" 2).1

/-- The advanced session after the host re-issues start_game mid-game. -/
def c4Restarted : GState := (start_game c4Advanced "h" "123456" 3).1

/-- Counterexample for C4: both halves of the claim fail on reachable
states because the handlers never check the session status.  `end_game`
issued in the lobby yields a finished session whose index is still −1 (so
index = −1 does not imply status = lobby), and re-issuing `start_game`
mid-game resets the index from 1 back to 0 while the status stays
in_progress (so the index is not monotone while in_progress). -/
theorem claim_C4_counterexample :
    Reach demoInit c4EndedLobby ∧
    c4EndedLobby.session.status = "finished" ∧
    c4EndedLobby.session.current_question_index = -1 ∧
    Reach demoInit c4Advanced ∧
    c4Restarted = (applyOp c4Advanced (.startOp "h" "123456" 3)).1 ∧
    c4Advanced.session.status = "in_progress" ∧
    c4Restarted.session.status = "in_progress" ∧
    c4Restarted.session.current_question_index
      < c4Advanced.session.current_question_index := by
  refine ⟨?_, by decide, by decide, ?_, rfl, by decide, by decide, by decide⟩
  · exact Reach.step c4sHost (.endOp "h" "123456" 5)
      (Reach.step demoInit (.joinOp "h" "123456" "" "host" "u1") Reach.refl)
  · exact Reach.step c4sStarted (.nextOp "h" "123456" 2)
      (Reach.step c4sHost (.startOp "h" "123456" 1)
        (Reach.step demoInit (.joinOp "h" "123456" "" "host" "u1") Reach.refl))
